import Mathlib

/-!
Verification of the Tiltfile flags and resource-selection extension
(repository hasheddan/tilt) against its specification.

The flag subsystem itself (registry, argument scanner, persisted config
store, merge engine, resource selector) ships in this repository only
through its behavioural test suite (src/internal/tiltfile/flags/flags_test.go);
the definitions below therefore model it from the specification and are
checked against the concrete expectations of that test suite.  The
exploding k8s client (src/internal/k8s/exploding_client.go) is embedded
directly from its source.
-/

namespace Tilt

/-- A flag definition registered by the running script: a unique name,
whether it is the (single) positional flag, and a usage string. -/
structure FlagDef where
  name : String
  isPositional : Bool
  usage : String
deriving Repr, DecidableEq

/-- The error taxonomy of the flags extension (spec section 7). -/
inductive FlagError where
  | duplicateFlag (name : String)
  | conflictingPositional (a b : String)
  | unknownFlag (name : String)
  | missingValue (name : String)
  | unexpectedPositional
  | unknownConfigFlag (key : String)
  | invalidConfigValue (key : String)
deriving Repr, DecidableEq

/-- Lexicographic strict order on character lists, by code point. -/
def charListLt : List Char → List Char → Bool
  | [], [] => false
  | [], _ :: _ => true
  | _ :: _, [] => false
  | a :: as, b :: bs =>
      if a.toNat < b.toNat then true
      else if b.toNat < a.toNat then false
      else charListLt as bs

/-- Lexicographic strict order on strings, by code point. -/
def strLt (a b : String) : Bool := charListLt a.data b.data

/-- The user-visible message of each error, as asserted verbatim by the
test suite. -/
def errMsg : FlagError → String
  | .duplicateFlag n => n ++ " defined multiple times"
  | .conflictingPositional a b =>
      "both " ++ (if strLt a b then a else b) ++ " and " ++
        (if strLt a b then b else a) ++ " are defined as positional args"
  | .unknownFlag n => "flag provided but not defined: -" ++ n
  | .missingValue n => "flag needs an argument: -" ++ n
  | .unexpectedPositional =>
      "positional args were specified, but none were expected (no arg defined with args=True)"
  | .unknownConfigFlag k => "specified unknown flag name \x27" ++ k ++ "\x27"
  | .invalidConfigValue k =>
      "specified invalid value for flag " ++ k ++ ": expected array"

/-- The first registered positional flag, if any. -/
def findPositional (reg : List FlagDef) : Option FlagDef :=
  reg.find? (fun d => d.isPositional)

/-- Whether a token begins with the keyword-flag marker. -/
def isFlagToken (t : String) : Bool :=
  match t.data with
  | [] => false
  | c :: _ => c == '-'

/-- The flag name of a marker-prefixed token: the token with its leading
marker character stripped. -/
def flagName (t : String) : String :=
  ⟨t.data.drop 1⟩

/-- Modelled from the spec: `define` (spec 4.1, the flags.define_string_list
host function; its implementation is absent from the repository sources).
Fails with `duplicateFlag` when the name is already registered, with
`conflictingPositional` when a second positional flag is requested, and
otherwise appends the new definition, preserving definition order. -/
def define (reg : List FlagDef) (name : String) (isPositional : Bool)
    (usage : String) : Except FlagError (List FlagDef) :=
  if reg.any (fun d => d.name == name) then
    .error (.duplicateFlag name)
  else if isPositional then
    match findPositional reg with
    | some other => .error (.conflictingPositional name other.name)
    | none => .ok (reg ++ [⟨name, isPositional, usage⟩])
  else
    .ok (reg ++ [⟨name, isPositional, usage⟩])

/-- One usage line for a defined flag: the marker-prefixed name followed
by its usage string (just the flag when the usage string is empty). -/
def usageLine (d : FlagDef) : String :=
  if d.usage == "" then "-" ++ d.name else "-" ++ d.name ++ " " ++ d.usage

/-- Modelled from the spec: the usage text (spec 4.1) renders one line per
defined flag, in definition order. -/
def usageText (reg : List FlagDef) : List String :=
  reg.map usageLine

/-- A mapping from flag name to ordered sequence of string values,
insertion order preserved. -/
abbrev FlagVals := List (String × List String)

/-- Partial lookup: the value sequence stored for a name, if present. -/
def lookupVals (m : FlagVals) (k : String) : Option (List String) :=
  (m.find? (fun p => p.1 == k)).map Prod.snd

/-- Total lookup defaulting to the empty sequence. -/
def getVals (m : FlagVals) (k : String) : List String :=
  (lookupVals m k).getD []

/-- Total lookup with an explicit default (the script-side cfg.get). -/
def getValsD (m : FlagVals) (k : String) (dflt : List String) : List String :=
  (lookupVals m k).getD dflt

/-- Append one value to the sequence of key `k`, creating the entry at the
end when absent (so first-appearance order is preserved). -/
def appendVal (m : FlagVals) (k v : String) : FlagVals :=
  match m with
  | [] => [(k, [v])]
  | (k2, vs) :: rest =>
      if k2 == k then (k2, vs ++ [v]) :: rest else (k2, vs) :: appendVal rest k v

/-- Modelled from the spec: the argument tokenizer (spec 4.2; its
implementation is absent from the repository sources).  Tokens are scanned
left to right: a marker-prefixed token is looked up in the registry
(failing with `unknownFlag` when undefined) and consumes the following
token as its value; a bare token is appended to the sequence of the positional flag when one is defined, and otherwise collected as a leftover. -/
def scanArgs (reg : List FlagDef) :
    List String → FlagVals → List String → Except FlagError (FlagVals × List String)
  | [], acc, left => .ok (acc, left)
  | [t], acc, left =>
    if isFlagToken t then
      match reg.find? (fun d => d.name == flagName t) with
      | none => .error (.unknownFlag (flagName t))
      | some _ => .error (.missingValue (flagName t))
    else
      match findPositional reg with
      | some p => .ok (appendVal acc p.name t, left)
      | none => .ok (acc, left ++ [t])
  | t :: v :: rest, acc, left =>
    if isFlagToken t then
      match reg.find? (fun d => d.name == flagName t) with
      | none => .error (.unknownFlag (flagName t))
      | some d => scanArgs reg rest (appendVal acc d.name v) left
    else
      match findPositional reg with
      | some p => scanArgs reg (v :: rest) (appendVal acc p.name t) left
      | none => scanArgs reg (v :: rest) acc (left ++ [t])

/-- Reference extraction: the values attributed to the name `n` by a
left-to-right walk of the argument list, in encounter order.  A flag
token contributes its following value token exactly when it names `n`;
a bare token contributes itself exactly when `n` is the positional flag. -/
def expectedVals (reg : List FlagDef) (n : String) : List String → List String
  | [] => []
  | [t] =>
    if isFlagToken t then []
    else
      match findPositional reg with
      | some p => if p.name == n then [t] else []
      | none => []
  | t :: v :: rest =>
    if isFlagToken t then
      match reg.find? (fun d => d.name == flagName t) with
      | none => expectedVals reg n rest
      | some d =>
        (if d.name == n then [v] else []) ++ expectedVals reg n rest
    else
      match findPositional reg with
      | some p => (if p.name == n then [t] else []) ++ expectedVals reg n (v :: rest)
      | none => expectedVals reg n (v :: rest)

/-- The name of the first marker-prefixed token that is met in flag
position (not consumed as the value of a preceding defined flag) and is
not registered, if any. -/
def firstUnknown (reg : List FlagDef) : List String → Option String
  | [] => none
  | [t] =>
    if isFlagToken t then
      match reg.find? (fun d => d.name == flagName t) with
      | none => some (flagName t)
      | some _ => none
    else none
  | t :: v :: rest =>
    if isFlagToken t then
      match reg.find? (fun d => d.name == flagName t) with
      | none => some (flagName t)
      | some _ => firstUnknown reg rest
    else firstUnknown reg (v :: rest)

/-- A JSON value, the shape of the persisted tilt_config.json sidecar. -/
inductive JsonVal where
  | jnull
  | jbool (b : Bool)
  | jnum (n : Int)
  | jstr (s : String)
  | jarr (xs : List JsonVal)
  | jobj (fields : List (String × JsonVal))

/-- The list of strings a JSON value denotes, when it is an array whose
elements are all strings. -/
def asStringArray : JsonVal → Option (List String)
  | .jarr xs =>
    xs.mapM (fun x => match x with | .jstr s => some s | _ => none)
  | _ => none

/-- Modelled from the spec: validation of the loaded persisted config
(spec 4.3; its implementation is absent from the repository sources).
Every key must name a defined flag and every value must be an array of
strings; the validated object becomes the persisted FlagVals. -/
def validateConfig (reg : List FlagDef) :
    List (String × JsonVal) → Except FlagError FlagVals
  | [] => .ok []
  | (k, v) :: rest =>
    if (reg.find? (fun d => d.name == k)).isSome then
      match asStringArray v with
      | some vs => (validateConfig reg rest).map (fun m => (k, vs) :: m)
      | none => .error (.invalidConfigValue k)
    else .error (.unknownConfigFlag k)

/-- Modelled from the spec: the precedence merge engine (spec 4.4; its
implementation is absent from the repository sources).  When `eligible`
(the persisted lastArgsWrite is the zero timestamp) a flag with a
non-empty parsed sequence takes it; every other flag keeps its persisted
sequence; a flag with a value from neither side is left out entirely. -/
def mergeFlags (reg : List FlagDef) (parsed persisted : FlagVals)
    (eligible : Bool) : FlagVals :=
  reg.foldr
    (fun d acc =>
      if eligible && !(getVals parsed d.name).isEmpty then
        (d.name, getVals parsed d.name) :: acc
      else
        match lookupVals persisted d.name with
        | some vs => (d.name, vs) :: acc
        | none => acc)
    []

/-- The outcome of a successful parse: the final flag state handed back
to the script (and rewritten to the persisted file) together with the new
lastArgsWrite marker (a timestamp, 0 meaning never written). -/
structure ParseResult where
  cfg : FlagVals
  lastArgsWrite : Nat
deriving Repr, DecidableEq

/-- Modelled from the spec: flags.parse (spec 4.2 to 4.4; its
implementation is absent from the repository sources).  Scans the process
arguments, rejects leftover bare tokens when no positional flag exists,
validates the persisted config object, merges under the first-write-wins
rule, and reports the new state; `now` is the host clock (a non-zero
timestamp).  The second component is the captured print output: the usage
text on an argument-scan failure, empty otherwise. -/
def parse (reg : List FlagDef) (args : List String)
    (config : List (String × JsonVal)) (lastArgsWrite now : Nat) :
    Except FlagError ParseResult × List String :=
  match scanArgs reg args [] [] with
  | .error e => (.error e, "Usage:" :: usageText reg)
  | .ok (parsed, leftovers) =>
    if !leftovers.isEmpty && (findPositional reg).isNone then
      (.error .unexpectedPositional, "Usage:" :: usageText reg)
    else
      match validateConfig reg config with
      | .error e => (.error e, [])
      | .ok persisted =>
        (.ok ⟨mergeFlags reg parsed persisted (lastArgsWrite == 0),
              if lastArgsWrite == 0 then now else lastArgsWrite⟩, [])

/-- Whether an error arises from the argument-scan phase (these emit the
usage text) as opposed to config-file validation (these do not). -/
def isArgFailure : FlagError → Bool
  | .unknownFlag _ => true
  | .missingValue _ => true
  | .unexpectedPositional => true
  | _ => false

/-- A declared work item, carrying its unique name. -/
structure Manifest where
  name : String
deriving Repr, DecidableEq

/-- Modelled from the spec: the final computation of the resource selector
(spec 4.5; its implementation is absent from the repository sources).
Explicit set_resources wins; otherwise the raw leftover arguments select
(in ManifestList order) only when parse was never invoked and they are
non-empty; otherwise all manifests are activated. -/
def resources (explicit : Option (List String)) (parseWasInvoked : Bool)
    (args : List String) (manifests : List Manifest) : List Manifest :=
  match explicit with
  | some names => manifests.filter (fun m => names.contains m.name)
  | none =>
    if !parseWasInvoked && !args.isEmpty then
      manifests.filter (fun m => args.contains m.name)
    else manifests

/-!
Embedding of src/internal/k8s/exploding_client.go.  Go multiple return
values become pairs; a nil error becomes `none`; nil slices and pointers
become `[]` and `none`; errors.Wrap(err, msg) produces an error whose text
is `msg ++ ": " ++ err`.  The collaborating k8s and container types are
external to the repository and are modelled as plain carriers.
-/

/-- A Go error value, carried by its message text. -/
structure GoError where
  text : String
deriving Repr, DecidableEq

/-- github.com/pkg/errors.Wrap applied to a (non-nil) error: prepends the
annotation to the message of the cause. -/
def wrapErr (e : GoError) (m : String) : GoError :=
  ⟨m ++ ": " ++ e.text⟩

/-- Carrier for k8s.K8sEntity; its Go zero value is `K8sEntity.zero`. -/
inductive K8sEntity where
  | zero
deriving Repr, DecidableEq

/-- Carrier for v1.Pod values returned by the client. -/
inductive Pod where
  | mk
deriving Repr, DecidableEq

/-- Carrier for watch.Interface values returned by the client. -/
inductive WatchInterface where
  | mk
deriving Repr, DecidableEq

/-- Carrier for io.ReadCloser values returned by the client. -/
inductive ReadCloser where
  | mk
deriving Repr, DecidableEq

/-- Carrier for k8s.PortForwarder values returned by the client. -/
inductive PortForwarder where
  | mk
deriving Repr, DecidableEq

/-- Carrier for the receive channel returned by WatchResource. -/
inductive WatchChannel where
  | mk
deriving Repr, DecidableEq

/-- container.Runtime; RuntimeUnknown is its neutral value. -/
inductive Runtime where
  | docker
  | containerd
  | crio
  | unknown
deriving Repr, DecidableEq

/-- container.Registry; its Go zero value has the empty host. -/
structure Registry where
  host : String
deriving Repr, DecidableEq

/-- explodingClient: a stub k8s client holding the error that prevented
real client construction. -/
structure explodingClient where
  err : GoError
deriving Repr, DecidableEq

namespace explodingClient

/-- The annotation every failing method wraps around the stored error. -/
def setupMsg : String := "could not set up k8s client"

/-- Upsert returns (nil, errors.Wrap(ec.err, "could not set up k8s client")). -/
def Upsert (ec : explodingClient) (_entities : List K8sEntity) :
    List K8sEntity × Option GoError :=
  ([], some (wrapErr ec.err setupMsg))

/-- Delete returns errors.Wrap(ec.err, "could not set up k8s client"). -/
def Delete (ec : explodingClient) (_entities : List K8sEntity) : Option GoError :=
  some (wrapErr ec.err setupMsg)

/-- GetByReference returns (K8sEntity{}, wrapped error). -/
def GetByReference (ec : explodingClient) : K8sEntity × Option GoError :=
  (.zero, some (wrapErr ec.err setupMsg))

/-- PodsWithImage returns (nil, wrapped error). -/
def PodsWithImage (ec : explodingClient) : List Pod × Option GoError :=
  ([], some (wrapErr ec.err setupMsg))

/-- PollForPodsWithImage returns (nil, wrapped error). -/
def PollForPodsWithImage (ec : explodingClient) : List Pod × Option GoError :=
  ([], some (wrapErr ec.err setupMsg))

/-- PodByID returns (nil, wrapped error). -/
def PodByID (ec : explodingClient) : Option Pod × Option GoError :=
  (none, some (wrapErr ec.err setupMsg))

/-- WatchPod returns (nil, wrapped error). -/
def WatchPod (ec : explodingClient) : Option WatchInterface × Option GoError :=
  (none, some (wrapErr ec.err setupMsg))

/-- ContainerLogs returns (nil, wrapped error). -/
def ContainerLogs (ec : explodingClient) : Option ReadCloser × Option GoError :=
  (none, some (wrapErr ec.err setupMsg))

/-- CreatePortForwarder returns (nil, wrapped error). -/
def CreatePortForwarder (ec : explodingClient) :
    Option PortForwarder × Option GoError :=
  (none, some (wrapErr ec.err setupMsg))

/-- WatchResource returns (nil, wrapped error). -/
def WatchResource (ec : explodingClient) :
    Option WatchChannel × Option GoError :=
  (none, some (wrapErr ec.err setupMsg))

/-- ConnectedToCluster returns the wrapped error. -/
def ConnectedToCluster (ec : explodingClient) : Option GoError :=
  some (wrapErr ec.err setupMsg)

/-- ContainerRuntime returns container.RuntimeUnknown. -/
def ContainerRuntime (_ec : explodingClient) : Runtime :=
  .unknown

/-- PrivateRegistry returns the zero value of container.Registry. -/
def PrivateRegistry (_ec : explodingClient) : Registry :=
  ⟨""⟩

/-- Exec returns the wrapped error. -/
def Exec (ec : explodingClient) (_cmd : List String) : Option GoError :=
  some (wrapErr ec.err setupMsg)

end explodingClient

/-! ### Supporting lemmas -/

theorem lookupVals_nil (n : String) : lookupVals [] n = none := rfl

theorem lookupVals_cons (k : String) (vs : List String) (m : FlagVals) (n : String) :
    lookupVals ((k, vs) :: m) n = if k = n then some vs else lookupVals m n := by
  by_cases h : k = n
  · simp [lookupVals, List.find?_cons, h]
  · simp [lookupVals, List.find?_cons, h]

theorem getVals_cons (k : String) (vs : List String) (m : FlagVals) (n : String) :
    getVals ((k, vs) :: m) n = if k = n then vs else getVals m n := by
  rw [getVals, lookupVals_cons]
  split <;> simp [getVals]

theorem getVals_appendVal (m : FlagVals) (k v n : String) :
    getVals (appendVal m k v) n =
      if k = n then getVals m n ++ [v] else getVals m n := by
  induction m with
  | nil =>
    by_cases h : k = n <;>
      simp [appendVal, getVals_cons, getVals, lookupVals, h]
  | cons p m ih =>
    obtain ⟨k2, vs⟩ := p
    by_cases hk : k2 = k
    · subst hk
      by_cases hn : k2 = n <;> simp [appendVal, getVals_cons, hn]
    · have hk2 : (k2 == k) = false := by simp [hk]
      by_cases hn : k2 = n
      · subst hn
        have hne : ¬k = k2 := fun h => hk h.symm
        simp [appendVal, hk2, getVals_cons, hne]
      · simp [appendVal, hk2, getVals_cons, hn, ih]

theorem mergeFlags_cons (d : FlagDef) (reg : List FlagDef)
    (parsed persisted : FlagVals) (e : Bool) :
    mergeFlags (d :: reg) parsed persisted e =
      if e && !(getVals parsed d.name).isEmpty then
        (d.name, getVals parsed d.name) :: mergeFlags reg parsed persisted e
      else
        match lookupVals persisted d.name with
        | some vs => (d.name, vs) :: mergeFlags reg parsed persisted e
        | none => mergeFlags reg parsed persisted e := rfl

theorem lookupVals_mergeFlags (reg : List FlagDef) (parsed persisted : FlagVals)
    (e : Bool) (n : String) :
    lookupVals (mergeFlags reg parsed persisted e) n =
      if reg.any (fun d => d.name == n) then
        (if e && !(getVals parsed n).isEmpty then some (getVals parsed n)
         else lookupVals persisted n)
      else none := by
  induction reg with
  | nil => simp [mergeFlags, lookupVals]
  | cons d reg ih =>
    rw [mergeFlags_cons]
    by_cases hdn : d.name = n
    · subst hdn
      simp only [List.any_cons, beq_self_eq_true, Bool.true_or, if_true]
      by_cases hc : (e && !(getVals parsed d.name).isEmpty) = true
      · simp [hc, lookupVals_cons]
      · have hc2 : (e && !(getVals parsed d.name).isEmpty) = false :=
          Bool.eq_false_iff.mpr hc
        cases hlp : lookupVals persisted d.name with
        | some vs => simp [hc2, lookupVals_cons, hlp]
        | none => simp [hc2, ih, hlp]
    · have hb : (d.name == n) = false := by simp [hdn]
      simp only [List.any_cons, hb, Bool.false_or]
      split
      · rw [lookupVals_cons, if_neg hdn, ih]
      · cases hlp : lookupVals persisted d.name with
        | some vs => rw [lookupVals_cons, if_neg hdn, ih]
        | none => rw [ih]

theorem scanArgs_ok_getVals (reg : List FlagDef) (n : String)
    (args : List String) (acc : FlagVals) (left : List String) :
    ∀ (parsed : FlagVals) (lo : List String),
      scanArgs reg args acc left = .ok (parsed, lo) →
      getVals parsed n = getVals acc n ++ expectedVals reg n args := by
  induction args, acc, left using scanArgs.induct reg with
  | case1 acc left =>
    intro parsed lo h
    simp [scanArgs] at h
    obtain ⟨h1, h2⟩ := h
    subst h1
    simp [expectedVals]
  | case2 t acc left hf hfind =>
    intro parsed lo h
    simp [scanArgs, hf, hfind] at h
  | case3 t acc left hf d hfind =>
    intro parsed lo h
    simp [scanArgs, hf, hfind] at h
  | case4 t acc left hf p hpos =>
    intro parsed lo h
    simp [scanArgs, hf, hpos] at h
    obtain ⟨h1, h2⟩ := h
    subst h1
    rw [getVals_appendVal]
    by_cases hn : p.name = n <;>
      simp [expectedVals, hf, hpos, hn]
  | case5 t acc left hf hpos =>
    intro parsed lo h
    simp [scanArgs, hf, hpos] at h
    obtain ⟨h1, h2⟩ := h
    subst h1
    simp [expectedVals, hf, hpos]
  | case6 t v rest acc left hf hfind =>
    intro parsed lo h
    simp [scanArgs, hf, hfind] at h
  | case7 t v rest acc left hf d hfind ih =>
    intro parsed lo h
    simp only [scanArgs, hf, hfind, if_true] at h
    rw [ih parsed lo h, getVals_appendVal]
    by_cases hn : d.name = n <;>
      simp [expectedVals, hf, hfind, hn]
  | case8 t v rest acc left hf p hpos ih =>
    intro parsed lo h
    simp only [scanArgs, hf, hpos, Bool.not_eq_true, if_false] at h
    rw [ih parsed lo h, getVals_appendVal]
    by_cases hn : p.name = n <;>
      simp [expectedVals, hf, hpos, hn]
  | case9 t v rest acc left hf hpos ih =>
    intro parsed lo h
    simp only [scanArgs, hf, hpos, Bool.not_eq_true, if_false] at h
    rw [ih parsed lo h]
    simp [expectedVals, hf, hpos]

theorem firstUnknown_scanArgs (reg : List FlagDef) (n : String)
    (args : List String) :
    firstUnknown reg args = some n →
    ∀ (acc : FlagVals) (left : List String),
      scanArgs reg args acc left = .error (.unknownFlag n) := by
  induction args using firstUnknown.induct reg with
  | case1 =>
    intro h
    simp [firstUnknown] at h
  | case2 t hf hfind =>
    intro h acc left
    simp [firstUnknown, hf, hfind] at h
    subst h
    simp [scanArgs, hf, hfind]
  | case3 t hf d hfind =>
    intro h
    simp [firstUnknown, hf, hfind] at h
  | case4 t hf =>
    intro h
    simp [firstUnknown, hf] at h
  | case5 t v rest hf hfind =>
    intro h acc left
    simp [firstUnknown, hf, hfind] at h
    subst h
    simp [scanArgs, hf, hfind]
  | case6 t v rest hf d hfind ih =>
    intro h acc left
    simp [firstUnknown, hf, hfind] at h
    simp [scanArgs, hf, hfind, ih h]
  | case7 t v rest hf ih =>
    intro h acc left
    simp only [firstUnknown, hf, Bool.not_eq_true, if_false] at h
    simp only [scanArgs, hf, Bool.not_eq_true, if_false]
    cases hpos : findPositional reg with
    | some p => exact ih h _ _
    | none => exact ih h _ _

theorem validateConfig_ok_keys (reg : List FlagDef) (obj : List (String × JsonVal)) :
    ∀ (persisted : FlagVals),
      validateConfig reg obj = .ok persisted →
      ∀ n, reg.any (fun d => d.name == n) = false → lookupVals persisted n = none := by
  induction obj with
  | nil =>
    intro persisted h n hn
    simp [validateConfig] at h
    subst h
    rfl
  | cons p rest ih =>
    obtain ⟨k, v⟩ := p
    intro persisted h n hn
    simp only [validateConfig] at h
    by_cases hk : (List.find? (fun d => d.name == k) reg).isSome
    · rw [if_pos hk] at h
      cases hv : asStringArray v with
      | none => rw [hv] at h; simp at h
      | some vs =>
        rw [hv] at h
        cases hrest : validateConfig reg rest with
        | error e => rw [hrest] at h; simp [Except.map] at h
        | ok m =>
          rw [hrest] at h
          simp only [Except.map, Except.ok.injEq] at h
          subst h
          have hkn : k ≠ n := by
            intro he
            subst he
            obtain ⟨d, hd, hp⟩ := List.find?_isSome.mp hk
            have : reg.any (fun d => d.name == k) = true :=
              List.any_eq_true.mpr ⟨d, hd, hp⟩
            rw [this] at hn
            exact Bool.true_eq_false.mp hn
          rw [lookupVals_cons, if_neg hkn]
          exact ih m hrest n hn
    · rw [if_neg hk] at h
      simp at h

theorem validateConfig_unknown_head (reg : List FlagDef) (k : String)
    (v : JsonVal) (rest : List (String × JsonVal))
    (h : List.find? (fun d => d.name == k) reg = none) :
    validateConfig reg ((k, v) :: rest) = .error (.unknownConfigFlag k) := by
  simp [validateConfig, h]

theorem validateConfig_invalid_head (reg : List FlagDef) (k : String)
    (v : JsonVal) (rest : List (String × JsonVal))
    (h1 : (List.find? (fun d => d.name == k) reg).isSome)
    (h2 : asStringArray v = none) :
    validateConfig reg ((k, v) :: rest) = .error (.invalidConfigValue k) := by
  simp [validateConfig, h1, h2]

theorem validateConfig_append_error (reg : List FlagDef)
    (pre : List (String × JsonVal)) :
    ∀ (obj : List (String × JsonVal)) (e : FlagError),
      (∀ p ∈ pre, (List.find? (fun d => d.name == p.1) reg).isSome ∧
        (asStringArray p.2).isSome) →
      validateConfig reg obj = .error e →
      validateConfig reg (pre ++ obj) = .error e := by
  induction pre with
  | nil => intro obj e _ h; simpa using h
  | cons p pre ih =>
    obtain ⟨k, v⟩ := p
    intro obj e hall h
    have h1 := (hall (k, v) (by simp)).1
    have h2 := (hall (k, v) (by simp)).2
    obtain ⟨vs, hvs⟩ := Option.isSome_iff_exists.mp h2
    have hrec := ih obj e (fun q hq => hall q (by simp [hq])) h
    simp [validateConfig, h1, hvs, hrec, Except.map]

theorem parse_scan_error (reg : List FlagDef) (args : List String)
    (config : List (String × JsonVal)) (law now : Nat) (e : FlagError)
    (hscan : scanArgs reg args [] [] = .error e) :
    parse reg args config law now = (.error e, "Usage:" :: usageText reg) := by
  simp [parse, hscan]

theorem parse_leftover_error (reg : List FlagDef) (args : List String)
    (config : List (String × JsonVal)) (law now : Nat)
    (parsed : FlagVals) (lo : List String)
    (hscan : scanArgs reg args [] [] = .ok (parsed, lo))
    (hpos : findPositional reg = none) (hlo : lo ≠ []) :
    parse reg args config law now =
      (.error .unexpectedPositional, "Usage:" :: usageText reg) := by
  have hne : lo.isEmpty = false := by
    cases lo with
    | nil => exact absurd rfl hlo
    | cons a l => rfl
  simp [parse, hscan, hpos, hne]

theorem parse_config_error (reg : List FlagDef) (args : List String)
    (config : List (String × JsonVal)) (law now : Nat)
    (parsed : FlagVals) (lo : List String) (e : FlagError)
    (hscan : scanArgs reg args [] [] = .ok (parsed, lo))
    (hcheck : (!lo.isEmpty && (findPositional reg).isNone) = false)
    (hval : validateConfig reg config = .error e) :
    parse reg args config law now = (.error e, []) := by
  simp [parse, hscan, hcheck, hval]

theorem parse_ok_parts (reg : List FlagDef) (args : List String)
    (config : List (String × JsonVal)) (law now : Nat)
    (parsed persisted : FlagVals) (lo : List String)
    (final : FlagVals) (law2 : Nat) (out : List String)
    (hscan : scanArgs reg args [] [] = .ok (parsed, lo))
    (hval : validateConfig reg config = .ok persisted)
    (hp : parse reg args config law now = (.ok ⟨final, law2⟩, out)) :
    final = mergeFlags reg parsed persisted (law == 0) ∧
    law2 = (if law == 0 then now else law) ∧ out = [] := by
  simp only [parse, hscan] at hp
  split at hp
  · simp at hp
  · rw [hval] at hp
    simp only [Prod.mk.injEq, Except.ok.injEq, ParseResult.mk.injEq] at hp
    obtain ⟨⟨h1, h2⟩, h3⟩ := hp
    exact ⟨h1.symm, h2.symm, h3.symm⟩

/-! ### The claims -/

/-- Claim C1: with the persisted lastArgsWrite at the zero timestamp,
parse merges per flag — a flag with a non-empty parsed value sequence
takes that sequence, replacing any persisted value, and a flag absent
from the parsed arguments retains its persisted sequence; the first-run
capture example with args -a 1 -a 2 -b 3 -a 4 5 6 and positional flag c
yields a=[1,2,4], b=[3], c=[5,6]; and after a successful parse from the
zero-timestamp state lastArgsWrite is non-zero. -/
theorem claim_c1 (reg : List FlagDef) (args : List String)
    (config : List (String × JsonVal)) (now : Nat)
    (parsed persisted : FlagVals) (lo : List String)
    (final : FlagVals) (law2 : Nat) (out : List String)
    (hnow : now ≠ 0)
    (hscan : scanArgs reg args [] [] = .ok (parsed, lo))
    (hval : validateConfig reg config = .ok persisted)
    (hp : parse reg args config 0 now = (.ok ⟨final, law2⟩, out)) :
    (∀ d ∈ reg,
      (getVals parsed d.name ≠ [] →
        lookupVals final d.name = some (getVals parsed d.name)) ∧
      (getVals parsed d.name = [] →
        lookupVals final d.name = lookupVals persisted d.name)) ∧
    law2 ≠ 0 ∧
    parse [⟨"a", false, ""⟩, ⟨"b", false, ""⟩, ⟨"c", true, ""⟩]
        ["-a", "1", "-a", "2", "-b", "3", "-a", "4", "5", "6"] [] 0 1
      = (.ok ⟨[("a", ["1", "2", "4"]), ("b", ["3"]), ("c", ["5", "6"])], 1⟩, []) := by
  obtain ⟨hfin, hlaw, hout⟩ := parse_ok_parts _ _ _ _ _ _ _ _ _ _ _ hscan hval hp
  refine ⟨?_, ?_, rfl⟩
  · intro d hd
    have hany : reg.any (fun x => x.name == d.name) = true :=
      List.any_eq_true.mpr ⟨d, hd, by simp⟩
    constructor
    · intro hne
      have hie : (getVals parsed d.name).isEmpty = false := by
        cases hval2 : getVals parsed d.name with
        | nil => exact absurd hval2 hne
        | cons a l => rfl
      rw [hfin, lookupVals_mergeFlags]
      simp [hany, hie]
    · intro heq
      rw [hfin, lookupVals_mergeFlags]
      simp [hany, heq]
  · rw [hlaw]
    simpa using hnow

/-- Claim C1 witness: the first-run capture instance, for the flag b. -/
theorem claim_c1_witness :
    getVals [("a", ["1", "2", "4"]), ("b", ["3"]), ("c", ["5", "6"])] "b" ≠ [] ∧
    lookupVals [("a", ["1", "2", "4"]), ("b", ["3"]), ("c", ["5", "6"])] "b"
      = some (getVals [("a", ["1", "2", "4"]), ("b", ["3"]), ("c", ["5", "6"])] "b") :=
  ⟨by decide,
    ((claim_c1 [⟨"a", false, ""⟩, ⟨"b", false, ""⟩, ⟨"c", true, ""⟩]
        ["-a", "1", "-a", "2", "-b", "3", "-a", "4", "5", "6"] [] 1
        [("a", ["1", "2", "4"]), ("b", ["3"]), ("c", ["5", "6"])] [] []
        [("a", ["1", "2", "4"]), ("b", ["3"]), ("c", ["5", "6"])] 1 []
        (by decide) rfl rfl rfl).1 ⟨"b", false, ""⟩ (by decide)).1 (by decide)⟩

/-- Claim C2 (amended): when the persisted store holds a non-zero
lastArgsWrite, any successful parse returns exactly the persisted values
for every flag (so successfully parsed process arguments have no effect
on the result, the persisted file content, or the write marker);
arguments that fail to scan still make parse itself fail. -/
theorem claim_c2 (reg : List FlagDef) (args : List String)
    (config : List (String × JsonVal)) (law now : Nat)
    (persisted final : FlagVals) (law2 : Nat) (out : List String)
    (hlaw : law ≠ 0)
    (hval : validateConfig reg config = .ok persisted)
    (hp : parse reg args config law now = (.ok ⟨final, law2⟩, out)) :
    (∀ n, lookupVals final n = lookupVals persisted n) ∧ law2 = law := by
  have hb : (law == 0) = false := by
    simpa using hlaw
  cases hscan : scanArgs reg args [] [] with
  | error e =>
    rw [parse_scan_error _ _ _ _ _ _ hscan] at hp
    simp at hp
  | ok pr =>
    obtain ⟨parsed, lo⟩ := pr
    obtain ⟨hfin, hlaw2, -⟩ := parse_ok_parts _ _ _ _ _ _ _ _ _ _ _ hscan hval hp
    constructor
    · intro n
      rw [hfin, lookupVals_mergeFlags, hb]
      cases hany : reg.any (fun d => d.name == n) with
      | true => simp
      | false => simp [validateConfig_ok_keys reg config persisted hval n hany]
    · rw [hlaw2, hb]
      rfl

/-- Claim C2 counterexample: with a non-zero lastArgsWrite the process
arguments still determine whether parse fails at all — a sequence with an
unknown flag makes parse error rather than return the persisted values,
while the empty sequence succeeds. -/
theorem claim_c2_counterexample :
    parse [⟨"a", false, ""⟩] ["-zzz", "1"] [] 1 2
      = (.error (.unknownFlag "zzz"), ["Usage:", "-a"]) ∧
    parse [⟨"a", false, ""⟩] [] [] 1 2 = (.ok ⟨[], 1⟩, []) :=
  ⟨rfl, rfl⟩

/-- Claim C2 witness: the persisted config b=[7,8], c=[9] with non-zero
marker 5 survives unchanged for flag b. -/
theorem claim_c2_witness :
    lookupVals [("b", ["7", "8"]), ("c", ["9"])] "b"
      = lookupVals [("b", ["7", "8"]), ("c", ["9"])] "b" ∧ (5 : Nat) = 5 :=
  ⟨(claim_c2 [⟨"a", false, ""⟩, ⟨"b", false, ""⟩, ⟨"c", true, ""⟩]
      ["-a", "1", "-a", "2", "-a", "4", "5", "6"]
      [("b", .jarr [.jstr "7", .jstr "8"]), ("c", .jarr [.jstr "9"])] 5 9
      [("b", ["7", "8"]), ("c", ["9"])] [("b", ["7", "8"]), ("c", ["9"])] 5 []
      (by decide) rfl rfl).1 "b",
   (claim_c2 [⟨"a", false, ""⟩, ⟨"b", false, ""⟩, ⟨"c", true, ""⟩]
      ["-a", "1", "-a", "2", "-a", "4", "5", "6"]
      [("b", .jarr [.jstr "7", .jstr "8"]), ("c", .jarr [.jstr "9"])] 5 9
      [("b", ["7", "8"]), ("c", ["9"])] [("b", ["7", "8"]), ("c", ["9"])] 5 []
      (by decide) rfl rfl).2⟩

/-- Claim C3: keyword flags and bare tokens may be interleaved freely —
on a successful scan the value sequence of every name equals the reference
extraction that walks the argument list and collects, in encounter order,
exactly the tokens attributed to that name (keyword values for keyword
flags, bare tokens for the positional flag), independent of the
interleaved tokens of the other flags; the example -bar X -baz Y -bar Z -baz W and
still with foo positional yields foo=[and, still], bar=[X, Z],
baz=[Y, W]. -/
theorem claim_c3 (reg : List FlagDef) (args : List String)
    (parsed : FlagVals) (lo : List String)
    (hscan : scanArgs reg args [] [] = .ok (parsed, lo)) :
    (∀ n, getVals parsed n = expectedVals reg n args) ∧
    parse [⟨"foo", true, ""⟩, ⟨"bar", false, ""⟩, ⟨"baz", false, ""⟩]
        ["-bar", "X", "-baz", "Y", "-bar", "Z", "-baz", "W", "and", "still"] [] 0 1
      = (.ok ⟨[("foo", ["and", "still"]), ("bar", ["X", "Z"]), ("baz", ["Y", "W"])], 1⟩,
         []) := by
  refine ⟨fun n => ?_, rfl⟩
  have h := scanArgs_ok_getVals reg n args [] [] parsed lo hscan
  simpa [getVals, lookupVals] using h

/-- Claim C3 witness: the interleaved example, evaluated for the flag bar. -/
theorem claim_c3_witness :
    getVals [("bar", ["X", "Z"]), ("baz", ["Y", "W"]), ("foo", ["and", "still"])] "bar"
      = expectedVals [⟨"foo", true, ""⟩, ⟨"bar", false, ""⟩, ⟨"baz", false, ""⟩] "bar"
          ["-bar", "X", "-baz", "Y", "-bar", "Z", "-baz", "W", "and", "still"] :=
  (claim_c3 [⟨"foo", true, ""⟩, ⟨"bar", false, ""⟩, ⟨"baz", false, ""⟩]
      ["-bar", "X", "-baz", "Y", "-bar", "Z", "-baz", "W", "and", "still"]
      [("bar", ["X", "Z"]), ("baz", ["Y", "W"]), ("foo", ["and", "still"])] []
      rfl).1 "bar"

/-- Claim C4: the three-case precedence of the resource selector — an explicit
set_resources selection filters the manifests by membership in it (in
ManifestList order); otherwise, when parse was never invoked and the raw
argument set is non-empty, the raw set filters the manifests; otherwise
all manifests are activated — and in particular invoking parse without
an explicit selection yields all manifests even when raw arguments are
present. -/
theorem claim_c4 (sel : Option (List String)) (pw : Bool)
    (args : List String) (ms : List Manifest) :
    (∀ names, sel = some names →
      resources sel pw args ms = ms.filter (fun m => names.contains m.name)) ∧
    (sel = none → pw = false → args ≠ [] →
      resources sel pw args ms = ms.filter (fun m => args.contains m.name)) ∧
    (sel = none → pw = true → resources sel pw args ms = ms) ∧
    (sel = none → args = [] → resources sel pw args ms = ms) ∧
    resources none true ["foo", "bar"] [⟨"foo"⟩, ⟨"bar"⟩, ⟨"baz"⟩]
      = [⟨"foo"⟩, ⟨"bar"⟩, ⟨"baz"⟩] ∧
    resources none false ["foo", "bar"] [⟨"foo"⟩, ⟨"bar"⟩, ⟨"baz"⟩]
      = [⟨"foo"⟩, ⟨"bar"⟩] ∧
    resources (some ["b"]) pw args [⟨"a"⟩, ⟨"b"⟩] = [⟨"b"⟩] := by
  refine ⟨?_, ?_, ?_, ?_, rfl, rfl, ?_⟩
  · intro names h
    subst h
    rfl
  · intro h1 h2 h3
    subst h1
    subst h2
    cases args with
    | nil => exact absurd rfl h3
    | cons a l => rfl
  · intro h1 h2
    subst h1
    subst h2
    rfl
  · intro h1 h2
    subst h1
    subst h2
    cases pw <;> rfl
  · cases args <;> rfl

/-- Claim C4 witness: the three cases at the test-suite instances. -/
theorem claim_c4_witness :
    resources none false ["a"] [⟨"a"⟩, ⟨"b"⟩] = [⟨"a"⟩] ∧
    resources none true ["a"] [⟨"a"⟩, ⟨"b"⟩] = [⟨"a"⟩, ⟨"b"⟩] :=
  ⟨(claim_c4 none false ["a"] [⟨"a"⟩, ⟨"b"⟩]).2.1 rfl rfl (by decide),
   (claim_c4 none true ["a"] [⟨"a"⟩, ⟨"b"⟩]).2.2.1 rfl rfl⟩

/-- Claim C5: define fails with duplicateFlag, message "name defined
multiple times", when the name is already registered; a second positional
definition fails with conflictingPositional whose message names both
positional flags in lexicographic order, "both min and max are defined as
positional args"; and a definition with a fresh name that does not add a
second positional flag always succeeds. -/
theorem claim_c5 (reg : List FlagDef) (name usage : String) (isPos : Bool) :
    (reg.any (fun d => d.name == name) = true →
      define reg name isPos usage = .error (.duplicateFlag name) ∧
      errMsg (.duplicateFlag name) = name ++ " defined multiple times") ∧
    (reg.any (fun d => d.name == name) = false →
      ∀ other, findPositional reg = some other →
        define reg name true usage = .error (.conflictingPositional name other.name) ∧
        errMsg (.conflictingPositional name other.name) =
          "both " ++ (if strLt name other.name then name else other.name) ++
            " and " ++ (if strLt name other.name then other.name else name) ++
            " are defined as positional args") ∧
    (reg.any (fun d => d.name == name) = false →
      (isPos = true → findPositional reg = none) →
      define reg name isPos usage = .ok (reg ++ [⟨name, isPos, usage⟩])) ∧
    define [⟨"foo", true, ""⟩] "bar" true ""
      = .error (.conflictingPositional "bar" "foo") ∧
    errMsg (.conflictingPositional "bar" "foo")
      = "both bar and foo are defined as positional args" ∧
    define [⟨"foo", false, ""⟩] "foo" false "" = .error (.duplicateFlag "foo") ∧
    errMsg (.duplicateFlag "foo") = "foo defined multiple times" := by
  refine ⟨?_, ?_, ?_, rfl, rfl, rfl, rfl⟩
  · intro h
    exact ⟨by simp [define, h], rfl⟩
  · intro h other hpos
    exact ⟨by simp [define, h, hpos], rfl⟩
  · intro h hpos
    cases isPos with
    | true => simp [define, h, hpos rfl]
    | false => simp [define, h]

/-- Claim C5 witness: the two failing and one succeeding instance. -/
theorem claim_c5_witness :
    define [⟨"foo", true, ""⟩] "bar" false "u"
      = .ok [⟨"foo", true, ""⟩, ⟨"bar", false, "u"⟩] :=
  (claim_c5 [⟨"foo", true, ""⟩] "bar" "u" false).2.2.1 (by decide)
    (fun h => absurd h (by decide))

theorem validateConfig_error_kind (reg : List FlagDef)
    (obj : List (String × JsonVal)) :
    ∀ e, validateConfig reg obj = .error e → isArgFailure e = false := by
  induction obj with
  | nil =>
    intro e h
    simp [validateConfig] at h
  | cons p rest ih =>
    obtain ⟨k, v⟩ := p
    intro e h
    simp only [validateConfig] at h
    by_cases hk : (List.find? (fun d => d.name == k) reg).isSome
    · rw [if_pos hk] at h
      cases hv : asStringArray v with
      | none =>
        rw [hv] at h
        simp at h
        subst h
        rfl
      | some vs =>
        rw [hv] at h
        cases hrest : validateConfig reg rest with
        | error e1 =>
          rw [hrest] at h
          simp [Except.map] at h
          subst h
          exact ih e1 hrest
        | ok m =>
          rw [hrest] at h
          simp [Except.map] at h
    · rw [if_neg hk] at h
      simp at h
      subst h
      rfl

/-- Claim C6 (amended): whenever the left-to-right scan meets, in flag
position (not consumed as the value of a preceding defined flag), a
marker-prefixed token whose name is not registered, parse fails with
exactly "flag provided but not defined: -name" and emits the usage text
(one line per defined flag, in definition order, under a Usage: header);
moreover every argument-scan failure emits that usage text before the
error propagates. -/
theorem claim_c6 (reg : List FlagDef) (args : List String)
    (config : List (String × JsonVal)) (law now : Nat) (n : String) :
    (firstUnknown reg args = some n →
      parse reg args config law now =
        (.error (.unknownFlag n), "Usage:" :: usageText reg) ∧
      errMsg (.unknownFlag n) = "flag provided but not defined: -" ++ n) ∧
    (∀ e, (parse reg args config law now).1 = .error e → isArgFailure e = true →
      (parse reg args config law now).2 = "Usage:" :: usageText reg) := by
  constructor
  · intro h
    exact ⟨parse_scan_error _ _ _ _ _ _ (firstUnknown_scanArgs reg n args h [] []), rfl⟩
  · intro e he hargf
    cases hscan : scanArgs reg args [] [] with
    | error e0 =>
      rw [parse_scan_error _ _ _ _ _ _ hscan]
    | ok pr =>
      obtain ⟨parsed, lo⟩ := pr
      by_cases hc : (!lo.isEmpty && (findPositional reg).isNone) = true
      · have hpe : parse reg args config law now =
            (.error .unexpectedPositional, "Usage:" :: usageText reg) := by
          simp [parse, hscan, hc]
        rw [hpe]
      · have hc2 : (!lo.isEmpty && (findPositional reg).isNone) = false :=
          Bool.eq_false_iff.mpr hc
        cases hval : validateConfig reg config with
        | error e1 =>
          have hpe := parse_config_error reg args config law now parsed lo e1 hscan hc2 hval
          rw [hpe] at he
          simp at he
          have hkind : isArgFailure e = false := by
            have h2 := validateConfig_error_kind reg config e1 hval
            rwa [he] at h2
          rw [hkind] at hargf
          exact absurd hargf (by simp)
        | ok persisted =>
          have hpe : parse reg args config law now =
              (.ok ⟨mergeFlags reg parsed persisted (law == 0),
                    if law == 0 then now else law⟩, []) := by
            simp [parse, hscan, hc2, hval]
          rw [hpe] at he
          simp at he

/-- Claim C6 counterexample: the argument sequence -foo -bar contains the
marker-prefixed token -bar whose name bar is not registered, yet parse
succeeds, because -bar is consumed as the value of the defined flag foo. -/
theorem claim_c6_counterexample :
    (["-foo", "-bar"].contains "-bar") = true ∧
    List.find? (fun d => d.name == "bar") [FlagDef.mk "foo" false ""] = none ∧
    parse [FlagDef.mk "foo" false ""] ["-foo", "-bar"] [] 0 1
      = (.ok ⟨[("foo", ["-bar"])], 1⟩, []) :=
  ⟨rfl, rfl, rfl⟩

/-- Claim C6 witness: the unknown flag -bar with only foo defined, as in
the test suite, with the usage line emitted. -/
theorem claim_c6_witness :
    parse [⟨"foo", false, "what can I foo for you today?"⟩] ["-bar", "hello"] [] 0 1
      = (.error (.unknownFlag "bar"),
         ["Usage:", "-foo what can I foo for you today?"]) ∧
    errMsg (.unknownFlag "bar") = "flag provided but not defined: -bar" :=
  (claim_c6 [⟨"foo", false, "what can I foo for you today?"⟩] ["-bar", "hello"]
      [] 0 1 "bar").1 rfl

/-- Claim C7: when the scanned arguments leave bare tokens and no
positional flag is registered, a parse call fails with exactly
"positional args were specified, but none were expected (no arg defined
with args=True)"; without a parse call the bare tokens cause no error and
remain available to the resource selector, which uses them to filter the
manifests. -/
theorem claim_c7 (reg : List FlagDef) (args : List String)
    (config : List (String × JsonVal)) (law now : Nat)
    (parsed : FlagVals) (lo : List String)
    (hpos : findPositional reg = none)
    (hscan : scanArgs reg args [] [] = .ok (parsed, lo))
    (hlo : lo ≠ []) :
    parse reg args config law now =
      (.error .unexpectedPositional, "Usage:" :: usageText reg) ∧
    errMsg .unexpectedPositional =
      "positional args were specified, but none were expected (no arg defined with args=True)" ∧
    (∀ ms : List Manifest, resources none false args ms =
      if args.isEmpty then ms else ms.filter (fun m => args.contains m.name)) := by
  refine ⟨parse_leftover_error _ _ _ _ _ _ _ hscan hpos hlo, rfl, ?_⟩
  intro ms
  cases args with
  | nil => rfl
  | cons a l => rfl

/-- Claim C7 witness: args do re mi with no flag defined at all. -/
theorem claim_c7_witness :
    parse [] ["do", "re", "mi"] [] 0 1
      = (.error .unexpectedPositional, ["Usage:"]) :=
  (claim_c7 [] ["do", "re", "mi"] [] 0 1 [] ["do", "re", "mi"]
      rfl rfl (by decide)).1

/-- Claim C8: config-file validation during parse — a key matching no
defined flag fails with unknownConfigFlag, message "specified unknown
flag name (quoted key)", and a defined key whose value is not an array of
strings fails with invalidConfigValue, message "specified invalid value
for flag key: expected array"; both failures emit no usage text (the
captured output stays empty). -/
theorem claim_c8 (reg : List FlagDef) (pre rest : List (String × JsonVal))
    (k : String) (v : JsonVal) (law now : Nat)
    (hpre : ∀ p ∈ pre, (List.find? (fun d => d.name == p.1) reg).isSome ∧
      (asStringArray p.2).isSome) :
    (List.find? (fun d => d.name == k) reg = none →
      parse reg [] (pre ++ (k, v) :: rest) law now
        = (.error (.unknownConfigFlag k), []) ∧
      errMsg (.unknownConfigFlag k)
        = "specified unknown flag name \x27" ++ k ++ "\x27") ∧
    ((List.find? (fun d => d.name == k) reg).isSome → asStringArray v = none →
      parse reg [] (pre ++ (k, v) :: rest) law now
        = (.error (.invalidConfigValue k), []) ∧
      errMsg (.invalidConfigValue k)
        = "specified invalid value for flag " ++ k ++ ": expected array") := by
  have hscan : scanArgs reg [] [] [] = .ok ([], []) := rfl
  have hcheck : (!(([] : List String)).isEmpty && (findPositional reg).isNone)
      = false := by simp
  constructor
  · intro hk
    have hv := validateConfig_append_error reg pre _ _ hpre
      (validateConfig_unknown_head reg k v rest hk)
    exact ⟨parse_config_error _ _ _ _ _ _ _ _ hscan hcheck hv, rfl⟩
  · intro hk hv0
    have hv := validateConfig_append_error reg pre _ _ hpre
      (validateConfig_invalid_head reg k v rest hk hv0)
    exact ⟨parse_config_error _ _ _ _ _ _ _ _ hscan hcheck hv, rfl⟩

/-- Claim C8 witness: the two test-suite config files, bar unknown and
foo with a non-array value, each failing without usage output. -/
theorem claim_c8_witness :
    parse [⟨"foo", false, ""⟩] [] [("bar", .jstr "1")] 0 1
      = (.error (.unknownConfigFlag "bar"), []) ∧
    parse [⟨"foo", false, ""⟩] [] [("foo", .jstr "1")] 0 1
      = (.error (.invalidConfigValue "foo"), []) :=
  ⟨((claim_c8 [⟨"foo", false, ""⟩] [] [] "bar" (.jstr "1") 0 1
      (by simp)).1 rfl).1,
   ((claim_c8 [⟨"foo", false, ""⟩] [] [] "foo" (.jstr "1") 0 1
      (by simp)).2 rfl rfl).1⟩

/-- Claim C9: a defined flag that receives a value from neither the
process arguments nor the persisted config is absent from the final flag
state produced by a successful parse — its lookup yields none, and the
lookup with an explicit default yields that default. -/
theorem claim_c9 (reg : List FlagDef) (args : List String)
    (config : List (String × JsonVal)) (law now : Nat)
    (parsed persisted : FlagVals) (lo : List String)
    (final : FlagVals) (law2 : Nat) (out : List String)
    (d : FlagDef) (dflt : List String)
    (_hd : d ∈ reg)
    (hscan : scanArgs reg args [] [] = .ok (parsed, lo))
    (hval : validateConfig reg config = .ok persisted)
    (hp : parse reg args config law now = (.ok ⟨final, law2⟩, out))
    (hnp : getVals parsed d.name = [])
    (hnc : lookupVals persisted d.name = none) :
    lookupVals final d.name = none ∧ getValsD final d.name dflt = dflt := by
  obtain ⟨hfin, -, -⟩ := parse_ok_parts _ _ _ _ _ _ _ _ _ _ _ hscan hval hp
  have habs : lookupVals final d.name = none := by
    rw [hfin, lookupVals_mergeFlags]
    simp [hnp, hnc]
  exact ⟨habs, by simp [getValsD, habs]⟩

/-- Claim C9 witness: flag foo defined, nothing provided, looked up with
the explicit default []. -/
theorem claim_c9_witness :
    lookupVals [] "foo" = none ∧ getValsD [] "foo" [] = [] :=
  claim_c9 [⟨"foo", false, ""⟩] [] [] 0 1 [] [] [] [] 1 []
    ⟨"foo", false, ""⟩ [] (by decide) rfl rfl rfl rfl rfl

/-- Claim C10: every error-capable operation of explodingClient returns
the stored construction error wrapped with the message "could not set up
k8s client" and zero values for its other results, for every client and
input (the embedding is pure, so no side effects are possible); the two
non-error operations return the fixed neutral values RuntimeUnknown and
the zero Registry. -/
theorem claim_c10 (ec : explodingClient) (entities : List K8sEntity)
    (cmd : List String) :
    ec.Upsert entities
      = ([], some ⟨"could not set up k8s client: " ++ ec.err.text⟩) ∧
    ec.Delete entities = some ⟨"could not set up k8s client: " ++ ec.err.text⟩ ∧
    ec.GetByReference
      = (.zero, some ⟨"could not set up k8s client: " ++ ec.err.text⟩) ∧
    ec.PodsWithImage
      = ([], some ⟨"could not set up k8s client: " ++ ec.err.text⟩) ∧
    ec.PollForPodsWithImage
      = ([], some ⟨"could not set up k8s client: " ++ ec.err.text⟩) ∧
    ec.PodByID
      = (none, some ⟨"could not set up k8s client: " ++ ec.err.text⟩) ∧
    ec.WatchPod
      = (none, some ⟨"could not set up k8s client: " ++ ec.err.text⟩) ∧
    ec.ContainerLogs
      = (none, some ⟨"could not set up k8s client: " ++ ec.err.text⟩) ∧
    ec.CreatePortForwarder
      = (none, some ⟨"could not set up k8s client: " ++ ec.err.text⟩) ∧
    ec.WatchResource
      = (none, some ⟨"could not set up k8s client: " ++ ec.err.text⟩) ∧
    ec.ConnectedToCluster
      = some ⟨"could not set up k8s client: " ++ ec.err.text⟩ ∧
    ec.Exec cmd = some ⟨"could not set up k8s client: " ++ ec.err.text⟩ ∧
    ec.ContainerRuntime = Runtime.unknown ∧
    ec.PrivateRegistry = ⟨""⟩ :=
  ⟨rfl, rfl, rfl, rfl, rfl, rfl, rfl, rfl, rfl, rfl, rfl, rfl, rfl, rfl⟩

/-- Claim C10 witness: the client whose construction failed with boom. -/
theorem claim_c10_witness :
    explodingClient.Upsert ⟨⟨"boom"⟩⟩ []
      = ([], some ⟨"could not set up k8s client: boom"⟩) :=
  (claim_c10 ⟨⟨"boom"⟩⟩ [] []).1

end Tilt
